import Mathlib

/-!
Shallow embedding of the czodiac-keepers-utils scheduling/execution engine
(src/scheduler/models.py, src/scheduler/scheduler.py,
src/scheduler/utils/web3_utils.py, src/scheduler/utils/web3_service.py).

Python values are modelled explicitly: `Optional[int]` becomes `Option Nat`
(or `Option Int`), Python truthiness (`if x:`) becomes dedicated `pyTruthy*`
functions (None, 0, 0.0, "" and empty lists are falsy), Python `float` values
that the code multiplies and truncates become `Rat` with truncation toward
zero, and Python exceptions become `Except String`.  External effects (RPC
probes, gas estimation, signing, receipts, sleeps) are supplied by an
explicit oracle environment so that executions are pure and computable.
-/

/-- Python truthiness for `Optional[int]`: `None` and `0` are falsy. -/
def pyTruthyNat : Option Nat → Bool
  | none => false
  | some n => n != 0

/-- Python truthiness for `Optional[float]`: `None` and `0.0` are falsy.
Floats are modelled as rationals. -/
def pyTruthyRat : Option Rat → Bool
  | none => false
  | some q => q != 0

/-- Python truthiness for `Optional[str]` (`if not job.schedule`):
`None` and the empty string are falsy. -/
def pyTruthyStr : Option String → Bool
  | none => false
  | some s => s != ""

/-- Python `int()` truncation toward zero of a rational
(`int(x)` for a float `x`, here modelled exactly on `Rat`). -/
def pyIntTrunc (q : Rat) : Int :=
  Int.tdiv q.num (Int.ofNat q.den)

/-- Python `x or y` for an optional integer left operand
(`job.gas_limit or fallback`): yields the left value when truthy,
otherwise the fallback. -/
def pyOrNat (x : Option Nat) (fallback : Nat) : Nat :=
  if pyTruthyNat x then x.getD 0 else fallback

/-- Model of `str.startswith` via the character list of the string. -/
def listStarts : List Char → List Char → Bool
  | _, [] => true
  | [], _ :: _ => false
  | a :: as, b :: bs => a = b && listStarts as bs

/-- Model of Python `s.startswith(p)`. -/
def pyStartsWith (s p : String) : Bool :=
  listStarts s.data p.data

/-- Model of Python `len(s)` for strings (number of characters). -/
def pyLen (s : String) : Nat :=
  s.data.length

/-- Lower-casing of one ASCII character (`str.lower` restricted to ASCII,
which covers every string the schedule grammar compares). -/
def lowerChar (c : Char) : Char :=
  if 'A' ≤ c && c ≤ 'Z' then Char.ofNat (c.toNat + 32) else c

/-- Model of Python `s.lower()` (ASCII range). -/
def pyLower (s : String) : String :=
  ⟨s.data.map lowerChar⟩

/-- Whitespace characters recognised by Python `str.split()` (the ones
that can occur in schedule strings). -/
def isWs (c : Char) : Bool :=
  c = ' ' || c = '\t' || c = '\n' || c = '\r'

/-- Helper for `pySplit`: accumulates the current token (reversed). -/
def splitWsGo : List Char → List Char → List (List Char)
  | [], cur => if cur.isEmpty then [] else [cur.reverse]
  | c :: cs, cur =>
    if isWs c then
      if cur.isEmpty then splitWsGo cs [] else cur.reverse :: splitWsGo cs []
    else
      splitWsGo cs (c :: cur)

/-- Model of Python `s.strip().split()`: split on whitespace runs with no
empty tokens (leading/trailing whitespace is irrelevant to this split). -/
def pySplit (s : String) : List String :=
  (splitWsGo s.data []).map fun l => ⟨l⟩

/-- Helper for `pyIntParse`: digit accumulation. -/
def digitsValGo : Nat → List Char → Option Nat
  | acc, [] => some acc
  | acc, c :: cs =>
    if c.isDigit then digitsValGo (acc * 10 + (c.toNat - '0'.toNat)) cs else none

/-- Value of a non-empty all-digit character list. -/
def digitsVal (l : List Char) : Option Nat :=
  if l.isEmpty then none else digitsValGo 0 l

/-- Strip whitespace from both ends of a character list. -/
def trimWs (l : List Char) : List Char :=
  ((l.dropWhile isWs).reverse.dropWhile isWs).reverse

/-- Model of Python `int(s)` on decimal strings: optional sign, decimal
digits, surrounding whitespace allowed; `None` models a raised
`ValueError` (digit-group underscores are not used by this repository's
schedules and are not modelled). -/
def pyIntParse (s : String) : Option Int :=
  match trimWs s.data with
  | '+' :: ds => (digitsVal ds).map Int.ofNat
  | '-' :: ds => (digitsVal ds).map fun n => -(n : Int)
  | ds => (digitsVal ds).map Int.ofNat

/-! ## Data model (src/scheduler/models.py) -/

/-- Supported blockchain networks (`class Network(str, Enum)`). -/
inductive Network
  | ethereum
  | bsc
  | polygon
  | arbitrum
  | optimism
deriving DecidableEq, Repr

/-- String value of a network member (`network.value`). -/
def Network.value : Network → String
  | .ethereum => "ethereum"
  | .bsc => "bsc"
  | .polygon => "polygon"
  | .arbitrum => "arbitrum"
  | .optimism => "optimism"

/-- Opaque Python values used as contract-method arguments
(`List[Any]` in the models). -/
inductive PyVal
  | int (n : Int)
  | str (s : String)
  | bool (b : Bool)
  | none
deriving DecidableEq, Repr

/-- Time of day in seconds since midnight.  Python `datetime.time` values
compare lexicographically on (hour, minute, second, microsecond), which on
whole seconds coincides with the numeric order used here. -/
abbrev TimeOfDay := Nat

/-- Model of `TimeWindow` (`models.py`): an allowed daily UTC time window.
The source field `end` is a Lean keyword and is written `«end»`. -/
structure TimeWindow where
  start : TimeOfDay
  «end» : TimeOfDay
deriving DecidableEq, Repr

/-- Model of `TimeWindow.contains` (`models.py` lines 94-98):
inclusive containment, wrapping past midnight when `start > end`. -/
def TimeWindow.contains (w : TimeWindow) (value : TimeOfDay) : Bool :=
  if w.start ≤ w.«end» then
    decide (w.start ≤ value ∧ value ≤ w.«end»)
  else
    decide (value ≥ w.start ∨ value ≤ w.«end»)

/-- Model of the `TimeWindow` model validator (`validate_window`):
a window with identical start and end is rejected. -/
def TimeWindow.validate_window (w : TimeWindow) : Except String TimeWindow :=
  if w.start = w.«end» then
    Except.error "Time window start and end times cannot be identical"
  else
    Except.ok w

/-- Model of `ContractJob` (`models.py`).  `retry_config`'s opaque dict is
modelled as an association list of `PyVal`s; it is never read by the
execution paths embedded here, matching the source. -/
structure ContractJob where
  name : String
  network : Network
  contract_address : String
  contract_abi_path : String
  method_name : String
  method_args : List PyVal := []
  schedule : Option String := none
  gas_limit : Option Nat := none
  gas_price : Option Nat := none
  value : Nat := 0
  enabled : Bool := true
  validate_before_send : Bool := true
  retry_config : Option (List (String × PyVal)) := none
deriving DecidableEq, Repr

/-- Model of the `ContractJob.validate_address` validator
(`models.py` lines 53-58): the address must start with `0x` and have
exactly 42 characters; on success the value itself is returned. -/
def validate_address (v : String) : Except String String :=
  if !pyStartsWith v "0x" || pyLen v ≠ 42 then
    Except.error "Contract address must be a valid Ethereum address"
  else
    Except.ok v

/-- Hexadecimal digit predicate (used only to state the address claim;
the source validator performs no such check). -/
def isHexChar (c : Char) : Bool :=
  c.isDigit || ('a' ≤ c && c ≤ 'f') || ('A' ≤ c && c ≤ 'F')

/-- Model of the extra fields of `ContractJobCustomArgs` (`models.py`). -/
structure CustomArgsSpec where
  args_module_path : String
  args_function_name : String := "calculate_args"
  args_input : Option (List (String × PyVal)) := none
deriving DecidableEq, Repr

/-- One member job of a sequence: a `ContractJob`, optionally carrying the
`ContractJobCustomArgs` extension (`customArgs = some _` plays the role of
Python's `isinstance(job, ContractJobCustomArgs)`). -/
structure SingleJob where
  toContractJob : ContractJob
  customArgs : Option CustomArgsSpec := none
deriving DecidableEq, Repr

/-- Model of `ContractJobMulti` (`models.py`): an ordered sequence of jobs
executed as one scheduled unit. -/
structure ContractJobMulti where
  name : String
  jobs : List SingleJob
  schedule : String
  enabled : Bool := true
  stop_on_failure : Bool := true
  delay_between_jobs : Option Rat := none
  retry_config : Option (List (String × PyVal)) := none
  allowed_time_windows : Option (List TimeWindow) := none
deriving DecidableEq, Repr

/-- Model of `NetworkConfig` (`models.py`). -/
structure NetworkConfig where
  rpc_url : String
  rpc_urls : List String := []
  chain_id : Option Nat := none
  explorer_url : Option String := none
deriving DecidableEq, Repr

/-- Model of `TransactionConfig` (`models.py` lines 158-164). -/
structure TransactionConfig where
  default_gas_limit : Nat := 200000
  default_gas_price : Option Nat := none
  gas_price_multiplier : Rat := 1
  max_retries : Nat := 3
  retry_delay : Nat := 30
deriving DecidableEq, Repr

/-! ## Oracle environment for external effects -/

/-- Result of a liveness probe `Web3(Web3.HTTPProvider(url)).is_connected()`:
it may answer `true`/`false` or raise an exception. -/
inductive ProbeResult
  | ok (b : Bool)
  | exn (msg : String)
deriving DecidableEq, Repr

/-- Result of `contract_method.estimate_gas(...)`: an estimate, a
`ContractLogicError` (caught specially by the executor), or any other
exception (propagated to the executor's outer handler). -/
inductive EstimateResult
  | ok (gas : Nat)
  | logicError (msg : String)
  | otherError (msg : String)
deriving DecidableEq, Repr

/-- Result of one `web3.eth.wait_for_transaction_receipt` attempt:
a receipt, a retryable error (`TransactionNotFound` / `ConnectionError`,
retried by the `@retry` decorator), or any other exception. -/
inductive WaitResult
  | ok (status : Nat)
  | retryable (msg : String)
  | fatal (msg : String)
deriving DecidableEq, Repr

/-- Model of a signed transaction: `raw = none` means none of the
`rawTransaction` / `raw_transaction` access fallbacks of
`execute_contract_method` succeeds. -/
structure SignedTx where
  raw : Option String
deriving DecidableEq, Repr

/-- Transaction parameter dict built by `execute_contract_method`
(lines 291-312 of web3_utils.py). -/
structure TxParamsPy where
  from_addr : String
  value : Nat
  nonce : Nat
  gas : Nat
  gasPrice : Int
deriving DecidableEq, Repr

/-- A Web3 connection handle, identified by the RPC URL it was built
against (`Web3(Web3.HTTPProvider(url))`). -/
structure Provider where
  url : String
deriving DecidableEq, Repr

/-- Oracle environment: every external interaction of the executor and of
the provider service, plus the process-wide configuration read from the
environment at startup (`TRANSACTION_CONFIG`, `get_network_config`,
`get_private_key`). -/
structure ExecEnv where
  transaction_config : TransactionConfig
  network_config : Network → Except String NetworkConfig
  probe : String → ProbeResult
  get_private_key : Except String String
  account_from_key : String → Except String String
  load_abi : String → Except String Unit
  get_contract : String → Except String Unit
  calculate_custom_args : CustomArgsSpec → Except String (List PyVal)
  bind_method : String → List PyVal → Except String Unit
  estimate_gas : String → List PyVal → String → Nat → EstimateResult
  get_transaction_count : String → Except String Nat
  network_gas_price : Except String Nat
  build_transaction : TxParamsPy → Except String TxParamsPy
  sign_transaction : TxParamsPy → Except String SignedTx
  send_raw_transaction : String → Except String String
  wait_receipt : String → Nat → WaitResult

/-! ## Connection acquisition -/

/-- Model of `get_web3_provider` (web3_utils.py lines 23-40): build a
provider against the network's primary RPC URL only; raise
`ConnectionError` when it is not connected.  An exception raised by the
probe itself propagates. -/
def get_web3_provider (env : ExecEnv) (network : Network) : Except String Provider :=
  match env.network_config network with
  | Except.error e => Except.error e
  | Except.ok cfg =>
    match env.probe cfg.rpc_url with
    | ProbeResult.exn m => Except.error m
    | ProbeResult.ok true => Except.ok ⟨cfg.rpc_url⟩
    | ProbeResult.ok false =>
      Except.error ("Failed to connect to " ++ network.value ++ " network")

/-- Association-list lookup modelling a Python `dict.get`. -/
def dictGet {α : Type} : List (Network × α) → Network → Option α
  | [], _ => none
  | (k, v) :: rest, key => if k = key then some v else dictGet rest key

/-- Association-list update modelling a Python `dict[key] = v`
(replace in place, or append when absent). -/
def dictSet {α : Type} : List (Network × α) → Network → α → List (Network × α)
  | [], key, v => [(key, v)]
  | (k, w) :: rest, key, v =>
    if k = key then (k, v) :: rest else (k, w) :: dictSet rest key v

/-- Mutable state of `Web3ProviderService` (web3_service.py): the
per-network cached provider and the per-network last-good endpoint index.
The per-network locks serialise access and carry no data; executions here
are single-threaded, so they are not modelled. -/
structure ProviderServiceState where
  providers : List (Network × Provider) := []
  active_indices : List (Network × Nat) := []
deriving DecidableEq, Repr

/-- Loop of `Web3ProviderService._connect_with_failover` (web3_service.py
lines 56-94): try each endpoint starting from `start_index`, wrapping
around, at most once through the list.  The returned `Nat` counts the
fresh endpoint connection attempts (one `Web3(...)` construction plus
liveness probe per iteration).  `raise ... from last_error` produces the
same `ConnectionError` message either way, so the chained cause is not
tracked. -/
def failover_loop (env : ExecEnv) (st : ProviderServiceState) (network : Network)
    (urls : List String) (start_index : Nat) :
    Nat → Nat → Except String (Provider × ProviderServiceState × Nat)
  | 0, _ =>
    Except.error ("Failed to connect to " ++ network.value ++ " network after trying "
      ++ toString urls.length ++ " RPC endpoint(s)")
  | fuel + 1, attempt =>
    let index := (start_index + attempt) % urls.length
    let url := urls.getD index ""
    match env.probe url with
    | ProbeResult.ok true =>
      Except.ok (⟨url⟩, { st with active_indices := dictSet st.active_indices network index },
        attempt + 1)
    | ProbeResult.ok false => failover_loop env st network urls start_index fuel (attempt + 1)
    | ProbeResult.exn _ => failover_loop env st network urls start_index fuel (attempt + 1)

/-- Model of `Web3ProviderService._connect_with_failover` (web3_service.py
lines 47-102). -/
def connect_with_failover (env : ExecEnv) (st : ProviderServiceState) (network : Network) :
    Except String (Provider × ProviderServiceState × Nat) :=
  match env.network_config network with
  | Except.error e => Except.error e
  | Except.ok cfg =>
    let rpc_urls := if cfg.rpc_urls.isEmpty then [cfg.rpc_url] else cfg.rpc_urls
    let start_index := (dictGet st.active_indices network).getD 0 % rpc_urls.length
    failover_loop env st network rpc_urls start_index rpc_urls.length 0

/-- Reconnect-and-cache path of `Web3ProviderService.get_provider`
(web3_service.py lines 43-45): on a cache miss or a dead cached handle,
connect with failover and store the connected provider in the cache. -/
def get_provider_reconnect (env : ExecEnv) (st : ProviderServiceState) (network : Network) :
    Except String (Provider × ProviderServiceState × Nat) :=
  match connect_with_failover env st network with
  | Except.error e => Except.error e
  | Except.ok (p, st₂, k) =>
    Except.ok (p, { st₂ with providers := dictSet st₂.providers network p }, k)

/-- Model of `Web3ProviderService.get_provider` (web3_service.py lines
26-45): reuse the cached provider when it is still connected, otherwise
reconnect with failover and cache the result.  The `Nat` component counts
fresh endpoint connection attempts; checking the cached handle's own
liveness is not a fresh connection attempt. -/
def Web3ProviderService.get_provider (env : ExecEnv) (st : ProviderServiceState)
    (network : Network) : Except String (Provider × ProviderServiceState × Nat) :=
  match dictGet st.providers network with
  | some provider =>
    match env.probe provider.url with
    | ProbeResult.exn m => Except.error m
    | ProbeResult.ok true => Except.ok (provider, st, 0)
    | ProbeResult.ok false => get_provider_reconnect env st network
  | none => get_provider_reconnect env st network

/-! ## Single-call executor (web3_utils.py `execute_contract_method`) -/

/-- Outcome triple of `execute_contract_method`:
`(success, transaction hash, error message)`. -/
structure TxOutcome where
  success : Bool
  tx_hash : Option String
  error : Option String
deriving DecidableEq, Repr

/-- Gas-limit safety buffer `int(gas_estimate * 1.2)` (web3_utils.py line
282).  The float literal `1.2` is modelled as the rational 6/5; on the
natural numbers involved the truncation is floor. -/
def bufferGas (gas_estimate : Nat) : Nat :=
  gas_estimate * 6 / 5

/-- Gas-price precedence of `execute_contract_method` (web3_utils.py lines
303-312): `if job.gas_price: ... elif TRANSACTION_CONFIG.default_gas_price:
... else: int(network_gas_price * multiplier)`.  Both `if` conditions use
Python truthiness, so `0` behaves like `None`.  The network gas price is
fetched only in the final branch, so its `Except` value is inspected only
there. -/
def compute_gas_price (txcfg : TransactionConfig) (job_gas_price : Option Nat)
    (network_gas_price : Except String Nat) : Except String Int :=
  if pyTruthyNat job_gas_price then
    Except.ok (job_gas_price.getD 0 : Int)
  else if pyTruthyNat txcfg.default_gas_price then
    Except.ok (txcfg.default_gas_price.getD 0 : Int)
  else
    match network_gas_price with
    | Except.error e => Except.error e
    | Except.ok g => Except.ok (pyIntTrunc ((g : Rat) * txcfg.gas_price_multiplier))

/-- Retry wrapper of `wait_for_transaction_receipt` (web3_utils.py lines
214-233): `@retry((TransactionNotFound, ConnectionError), tries=3, ...)`.
Retryable errors are re-raised after the tries are exhausted; any other
exception propagates immediately.  The backoff sleeps are irrelevant to
the outcome and are not recorded. -/
def retry_wait (env : ExecEnv) (tx_hash : String) : Nat → Nat → Except String Nat
  | 0, _ => Except.error "retry tries exhausted"
  | fuel + 1, attempt =>
    match env.wait_receipt tx_hash attempt with
    | WaitResult.ok status => Except.ok status
    | WaitResult.fatal m => Except.error m
    | WaitResult.retryable m =>
      if fuel = 0 then Except.error m else retry_wait env tx_hash fuel (attempt + 1)

/-- Body of `execute_contract_method` (web3_utils.py lines 248-363), i.e.
the contents of its `try` block.  `Except.error` is an exception escaping
to the outer `except Exception` handler; `Except.ok` is a normal return
(which can itself report failure, e.g. after a `ContractLogicError` or a
reverted receipt). -/
def execute_contract_method_core (env : ExecEnv) (job : SingleJob) :
    Except String TxOutcome :=
  let cj := job.toContractJob
  match get_web3_provider env cj.network with
  | Except.error e => Except.error e
  | Except.ok _web3 =>
  match env.get_private_key with
  | Except.error e => Except.error e
  | Except.ok key =>
  match env.account_from_key key with
  | Except.error e => Except.error e
  | Except.ok from_address =>
  match env.load_abi cj.contract_abi_path with
  | Except.error e => Except.error e
  | Except.ok _abi =>
  match env.get_contract cj.contract_address with
  | Except.error e => Except.error e
  | Except.ok _contract =>
  match (match job.customArgs with
         | none => Sum.inr cj.method_args
         | some spec =>
           match env.calculate_custom_args spec with
           | Except.ok args => Sum.inr args
           | Except.error m =>
             Sum.inl (TxOutcome.mk false none
               (some ("Failed to calculate custom arguments: " ++ m)))) with
  | Sum.inl out => Except.ok out
  | Sum.inr method_args =>
  match env.bind_method cj.method_name method_args with
  | Except.error e => Except.error e
  | Except.ok _method =>
  match (if cj.validate_before_send then
           match env.estimate_gas cj.method_name method_args from_address cj.value with
           | EstimateResult.ok g => Sum.inr (pyOrNat cj.gas_limit (bufferGas g))
           | EstimateResult.logicError m =>
             Sum.inl (Except.ok (TxOutcome.mk false none
               (some ("Transaction would fail: " ++ m))))
           | EstimateResult.otherError m => Sum.inl (Except.error m)
         else
           Sum.inr (pyOrNat cj.gas_limit env.transaction_config.default_gas_limit)) with
  | Sum.inl r => r
  | Sum.inr gas_limit =>
  match env.get_transaction_count from_address with
  | Except.error e => Except.error e
  | Except.ok nonce =>
  let gas := if gas_limit ≠ 0 then gas_limit else env.transaction_config.default_gas_limit
  match compute_gas_price env.transaction_config cj.gas_price env.network_gas_price with
  | Except.error e => Except.error e
  | Except.ok gasPrice =>
  match env.build_transaction ⟨from_address, cj.value, nonce, gas, gasPrice⟩ with
  | Except.error e => Except.error e
  | Except.ok tx =>
  match env.sign_transaction tx with
  | Except.error e => Except.error e
  | Except.ok signed =>
  match signed.raw with
  | none => Except.error "Could not extract raw transaction data"
  | some raw =>
  match env.send_raw_transaction raw with
  | Except.error e => Except.error e
  | Except.ok tx_hash_hex =>
  match retry_wait env tx_hash_hex 3 1 with
  | Except.error e => Except.error e
  | Except.ok status =>
  if status = 1 then Except.ok (TxOutcome.mk true (some tx_hash_hex) none)
  else Except.ok (TxOutcome.mk false (some tx_hash_hex) (some "Transaction failed"))

/-- Model of `execute_contract_method` (web3_utils.py lines 236-367): the
`try` body wrapped in the `except Exception` handler, which converts any
escaped exception into `(False, None, str(e))`. -/
def execute_contract_method (env : ExecEnv) (job : SingleJob) : TxOutcome :=
  match execute_contract_method_core env job with
  | Except.ok out => out
  | Except.error e => TxOutcome.mk false none (some e)

/-! ## Sequence executor (web3_utils.py `execute_multi_job`) -/

/-- One recorded per-step outcome `(job_name, success, tx_hash, error)`. -/
structure JobResult where
  name : String
  success : Bool
  tx_hash : Option String
  error : Option String
deriving DecidableEq, Repr

/-- Result of `execute_multi_job`, extended with the trace of inter-step
`time.sleep` suspensions actually performed (in order, in seconds). -/
structure MultiOutcome where
  overall_success : Bool
  job_results : List JobResult
  error : Option String
  sleeps : List Rat
deriving DecidableEq, Repr

/-- Loop body of `execute_multi_job` (web3_utils.py lines 387-412).
Arguments: the per-step executor (`execute_contract_method` partially
applied in the source), the sequence's `stop_on_failure` and
`delay_between_jobs` fields, the total number of jobs `n`
(`len(multi_job.jobs)`), the remaining steps, the current index `i`, and
the accumulated (reversed) results, overall flag, and (reversed) sleep
trace.  A disabled step records a skipped success and `continue`s,
bypassing the delay block; a failing step with `stop_on_failure` breaks
before the delay block; otherwise, when `delay_between_jobs` is truthy
and `i < n - 1`, the loop calls `time.sleep(delay_between_jobs)`:
a non-negative argument suspends and is recorded in the sleep trace,
while a negative argument makes `time.sleep` raise
`ValueError("sleep length must be non-negative")` — modelled by the
`Sum.inr` result carrying that message together with the results
recorded and the sleeps performed so far, for the outer handler.
`Sum.inl` is normal completion (including a `stop_on_failure` break). -/
def execute_multi_loop (exec : SingleJob → TxOutcome) (stop_on_failure : Bool)
    (delay_between_jobs : Option Rat) (n : Nat) :
    List SingleJob → Nat → List JobResult → Bool → List Rat →
    (Bool × List JobResult × List Rat) ⊕ (String × List JobResult × List Rat)
  | [], _, acc, overall, sleeps => Sum.inl (overall, acc.reverse, sleeps.reverse)
  | job :: rest, i, acc, overall, sleeps =>
    if job.toContractJob.enabled = false then
      execute_multi_loop exec stop_on_failure delay_between_jobs n rest (i + 1)
        (JobResult.mk job.toContractJob.name true none (some "Skipped - disabled") :: acc)
        overall sleeps
    else
      let r := exec job
      let acc' := JobResult.mk job.toContractJob.name r.success r.tx_hash r.error :: acc
      let overall' := overall && r.success
      if r.success = false ∧ stop_on_failure = true then
        Sum.inl (overall', acc'.reverse, sleeps.reverse)
      else
        if pyTruthyRat delay_between_jobs ∧ i < n - 1 then
          if delay_between_jobs.getD 0 < 0 then
            Sum.inr ("sleep length must be non-negative", acc'.reverse, sleeps.reverse)
          else
            execute_multi_loop exec stop_on_failure delay_between_jobs n rest (i + 1)
              acc' overall' (delay_between_jobs.getD 0 :: sleeps)
        else
          execute_multi_loop exec stop_on_failure delay_between_jobs n rest (i + 1)
            acc' overall' sleeps

/-- Model of `execute_multi_job` (web3_utils.py lines 370-423), with the
per-step executor abstracted (the source calls `execute_contract_method`).
The function reads only `jobs`, `stop_on_failure` and `delay_between_jobs`
from the sequence; nothing in its body consults `allowed_time_windows` or
any clock.  The outer `except Exception` handler (lines 421-423) is
reachable exactly through `time.sleep` raising on a negative
`delay_between_jobs` (`execute_contract_method` itself never raises); it
returns `(False, job_results, str(e))` with the per-step results recorded
so far. -/
def execute_multi_job (exec : SingleJob → TxOutcome) (multi_job : ContractJobMulti) :
    MultiOutcome :=
  match execute_multi_loop exec multi_job.stop_on_failure multi_job.delay_between_jobs
      multi_job.jobs.length multi_job.jobs 0 [] true [] with
  | Sum.inl (overall, results, sleeps) => MultiOutcome.mk overall results none sleeps
  | Sum.inr (e, results, sleeps) => MultiOutcome.mk false results (some e) sleeps

/-! ## Schedule interpretation and registry (scheduler.py) -/

/-- Parsed schedule trigger, the result of the `schedule.every()...`
registrations performed by `_schedule_job`. -/
inductive ScheduleSpec
  | dailyAt (time_spec : String)
  | weeklyAt (weekday : String) (time_spec : String)
  | randomInterval (min_interval max_interval : Int) (unit : String)
  | fixedInterval (interval : Int) (unit : String)
deriving DecidableEq, Repr

/-- Weekday tokens accepted by `_schedule_job`. -/
def weekdayNames : List String :=
  ["monday", "tuesday", "wednesday", "thursday", "friday", "saturday", "sunday"]

/-- Interval units accepted by `_schedule_job`. -/
def intervalUnits : List String :=
  ["second", "seconds", "minute", "minutes", "hour", "hours"]

/-- Model of `_schedule_job` (scheduler.py lines 73-150) as a decision
function: `some spec` when the job gets a trigger registered with the
cadence engine, `none` when it is skipped or rejected (empty/absent
schedule, too few tokens, unknown leading token, unknown weekday, bad
integer, unknown unit, missing token — all logged and dropped in the
source).  Out-of-range indexing raises `IndexError`, caught by the
source's `except (ValueError, IndexError)`, hence `none` as well. -/
def schedule_job_decision (schedule : Option String) : Option ScheduleSpec :=
  if !pyTruthyStr schedule then none
  else
    let parts := pySplit (schedule.getD "")
    if parts.length < 2 then none
    else if pyLower (parts.getD 0 "") = "every" then
      if 3 ≤ parts.length ∧ pyLower (parts.getD 2 "") = "at" then
        if pyLower (parts.getD 1 "") = "day" then
          some (ScheduleSpec.dailyAt (" ".intercalate (parts.drop 3)))
        else if weekdayNames.contains (pyLower (parts.getD 1 "")) then
          some (ScheduleSpec.weeklyAt (pyLower (parts.getD 1 ""))
            (" ".intercalate (parts.drop 3)))
        else none
      else if 4 ≤ parts.length ∧ pyLower (parts.getD 2 "") = "to" then
        match pyIntParse (parts.getD 1 ""), pyIntParse (parts.getD 3 "") with
        | some min_interval, some max_interval =>
          let unit := if 4 < parts.length then pyLower (parts.getD 4 "") else ""
          if intervalUnits.contains unit then
            some (ScheduleSpec.randomInterval min_interval max_interval unit)
          else none
        | _, _ => none
      else
        match pyIntParse (parts.getD 1 ""), parts.get? 2 with
        | some interval, some u =>
          let unit := pyLower u
          if intervalUnits.contains unit then
            some (ScheduleSpec.fixedInterval interval unit)
          else none
        | _, _ => none
    else none

/-- Any registrable entry: a standalone single job or a sequence
(`AnyJob` in models.py, minus the bare `ContractJobCustomArgs` case,
which `SingleJob` already covers). -/
inductive AnyJob
  | single (j : SingleJob)
  | multi (m : ContractJobMulti)
deriving DecidableEq, Repr

/-- Name of a registrable entry. -/
def AnyJob.name : AnyJob → String
  | .single j => j.toContractJob.name
  | .multi m => m.name

/-- Enabled flag of a registrable entry. -/
def AnyJob.enabled : AnyJob → Bool
  | .single j => j.toContractJob.enabled
  | .multi m => m.enabled

/-- Schedule string of a registrable entry (`ContractJobMulti.schedule`
is mandatory in the model, `ContractJob.schedule` optional). -/
def AnyJob.schedule : AnyJob → Option String
  | .single j => j.toContractJob.schedule
  | .multi m => some m.schedule

/-- The `_jobs` registry: a name-keyed dict modelled as an association
list with unique keys maintained by `register_job`. -/
abbrev Registry := List (String × AnyJob)

/-- Model of `register_job` (scheduler.py lines 21-32): store under the
job's name, overwriting in place on collision. -/
def register_job (reg : Registry) (job : AnyJob) : Registry :=
  match reg with
  | [] => [(job.name, job)]
  | (k, v) :: rest =>
    if k = job.name then (k, job) :: rest else (k, v) :: register_job rest job

/-- Model of `register_jobs` (scheduler.py lines 35-43). -/
def register_jobs (reg : Registry) (jobs : List AnyJob) : Registry :=
  jobs.foldl register_job reg

/-- Model of `_schedule_all_jobs` (scheduler.py lines 153-159) combined
with `_schedule_job`: the set of cadence-engine registrations the poll
loop can ever fire.  `schedule.run_pending()` only invokes executors
previously registered through `_schedule_job`, so an entry absent here is
never fired by the polling loop. -/
def scheduled_entries (reg : Registry) : List (String × ScheduleSpec) :=
  (reg.filter fun p => p.2.enabled).filterMap fun p =>
    (schedule_job_decision p.2.schedule).map fun s => (p.1, s)

/-- Model of the run-once branch of `run_scheduler` (scheduler.py lines
194-200): every enabled registered entry's executor is invoked directly,
in registry order, regardless of any schedule; the returned list is the
names executed, in order.  The function consults no clock and no
due-ness. -/
def run_once_executed (reg : Registry) : List String :=
  (reg.filter fun p => p.2.enabled).map fun p => p.1

/-! ## General lemmas about the embedded functions -/

/-- Shape lemma for the sequence loop: on normal completion the produced
results extend the accumulator, and the final overall flag is the
conjunction of the incoming flag with the success of every newly recorded
step. -/
theorem execute_multi_loop_overall (exec : SingleJob → TxOutcome) (stop : Bool)
    (delay : Option Rat) (n : Nat) :
    ∀ (jobs : List SingleJob) (i : Nat) (acc : List JobResult) (overall : Bool)
      (sleeps : List Rat) (ov : Bool) (res : List JobResult) (sl : List Rat),
      execute_multi_loop exec stop delay n jobs i acc overall sleeps
        = Sum.inl (ov, res, sl) →
      ∃ res', res = acc.reverse ++ res' ∧
        ov = (overall && res'.all fun r => r.success) := by
  intro jobs
  induction jobs with
  | nil =>
    intro i acc overall sleeps ov res sl h
    simp only [execute_multi_loop] at h
    injection h with h'
    simp only [Prod.mk.injEq] at h'
    obtain ⟨h1, h2, h3⟩ := h'
    exact ⟨[], by rw [← h2]; simp, by rw [← h1]; simp⟩
  | cons job rest ih =>
    intro i acc overall sleeps ov res sl h
    simp only [execute_multi_loop] at h
    by_cases hen : job.toContractJob.enabled = false
    · rw [if_pos hen] at h
      obtain ⟨res', hr, ho⟩ := ih (i + 1) _ overall sleeps ov res sl h
      exact ⟨JobResult.mk job.toContractJob.name true none (some "Skipped - disabled")
          :: res',
        by rw [hr]; simp, by rw [ho]; simp⟩
    · rw [if_neg hen] at h
      by_cases hbr : (exec job).success = false ∧ stop = true
      · rw [if_pos hbr] at h
        injection h with h'
        simp only [Prod.mk.injEq] at h'
        obtain ⟨h1, h2, h3⟩ := h'
        exact ⟨[JobResult.mk job.toContractJob.name (exec job).success (exec job).tx_hash
            (exec job).error],
          by rw [← h2]; simp, by rw [← h1]; simp⟩
      · rw [if_neg hbr] at h
        by_cases hc : pyTruthyRat delay = true ∧ i < n - 1
        · rw [if_pos hc] at h
          by_cases hneg : delay.getD 0 < 0
          · rw [if_pos hneg] at h
            simp at h
          · rw [if_neg hneg] at h
            obtain ⟨res', hr, ho⟩ := ih (i + 1) _ (overall && (exec job).success)
              (delay.getD 0 :: sleeps) ov res sl h
            exact ⟨JobResult.mk job.toContractJob.name (exec job).success (exec job).tx_hash
                (exec job).error :: res',
              by rw [hr]; simp, by rw [ho]; simp [Bool.and_assoc]⟩
        · rw [if_neg hc] at h
          obtain ⟨res', hr, ho⟩ := ih (i + 1) _ (overall && (exec job).success) sleeps
            ov res sl h
          exact ⟨JobResult.mk job.toContractJob.name (exec job).success (exec job).tx_hash
              (exec job).error :: res',
            by rw [hr]; simp, by rw [ho]; simp [Bool.and_assoc]⟩

/-- When `delay_between_jobs` is falsy (None or 0.0), the loop never
reaches the sleep call: it completes normally and never sleeps. -/
theorem execute_multi_loop_no_delay (exec : SingleJob → TxOutcome) (stop : Bool)
    (delay : Option Rat) (n : Nat) (h : pyTruthyRat delay = false) :
    ∀ (jobs : List SingleJob) (i : Nat) (acc : List JobResult) (overall : Bool)
      (sleeps : List Rat),
      ∃ ov res,
        execute_multi_loop exec stop delay n jobs i acc overall sleeps
          = Sum.inl (ov, res, sleeps.reverse) := by
  intro jobs
  induction jobs with
  | nil =>
    intro i acc overall sleeps
    exact ⟨overall, acc.reverse, by simp [execute_multi_loop]⟩
  | cons job rest ih =>
    intro i acc overall sleeps
    by_cases hen : job.toContractJob.enabled = false
    · obtain ⟨ov, res, hr⟩ := ih (i + 1)
        (JobResult.mk job.toContractJob.name true none (some "Skipped - disabled") :: acc)
        overall sleeps
      exact ⟨ov, res, by simp [execute_multi_loop, hen, hr]⟩
    · by_cases hbr : (exec job).success = false ∧ stop = true
      · exact ⟨overall && (exec job).success,
          (JobResult.mk job.toContractJob.name (exec job).success (exec job).tx_hash
            (exec job).error :: acc).reverse,
          by simp [execute_multi_loop, hen, hbr]⟩
      · have hc : ¬ (pyTruthyRat delay = true ∧ i < n - 1) := by simp [h]
        obtain ⟨ov, res, hr⟩ := ih (i + 1)
          (JobResult.mk job.toContractJob.name (exec job).success (exec job).tx_hash
            (exec job).error :: acc)
          (overall && (exec job).success) sleeps
        exact ⟨ov, res, by simp [execute_multi_loop, hen, hbr, hc, hr]⟩

/-- A run over only disabled steps records one skipped success per step,
keeps the overall flag, completes normally, and never sleeps. -/
theorem execute_multi_loop_all_disabled (exec : SingleJob → TxOutcome) (stop : Bool)
    (delay : Option Rat) (n : Nat) :
    ∀ (jobs : List SingleJob) (i : Nat) (acc : List JobResult) (overall : Bool)
      (sleeps : List Rat),
      (∀ j ∈ jobs, j.toContractJob.enabled = false) →
      execute_multi_loop exec stop delay n jobs i acc overall sleeps
        = Sum.inl (overall,
            acc.reverse ++ jobs.map (fun j =>
              JobResult.mk j.toContractJob.name true none (some "Skipped - disabled")),
            sleeps.reverse) := by
  intro jobs
  induction jobs with
  | nil => intro i acc overall sleeps _; simp [execute_multi_loop]
  | cons job rest ih =>
    intro i acc overall sleeps hall
    have hen : job.toContractJob.enabled = false := hall job (by simp)
    have hrec := ih (i + 1)
      (JobResult.mk job.toContractJob.name true none (some "Skipped - disabled") :: acc)
      overall sleeps (fun j hj => hall j (by simp [hj]))
    simp [execute_multi_loop, hen, hrec]

/-- Sleep-trace lemma for an all-enabled suffix with a positive delay: the
run completes normally and the performed sleeps are exactly one delay per
recorded step except the last recorded one.  `i + jobs.length = n`
relates the running index to `len(multi_job.jobs)` as in the source
loop. -/
theorem execute_multi_loop_sleeps (exec : SingleJob → TxOutcome) (stop : Bool)
    (d : Rat) (n : Nat) (hd : 0 < d) :
    ∀ (jobs : List SingleJob) (i : Nat) (acc : List JobResult) (overall : Bool)
      (sleeps : List Rat),
      (∀ j ∈ jobs, j.toContractJob.enabled = true) →
      i + jobs.length = n →
      ∃ ov res',
        execute_multi_loop exec stop (some d) n jobs i acc overall sleeps
          = Sum.inl (ov, acc.reverse ++ res',
              sleeps.reverse ++ List.replicate (res'.length - 1) d) ∧
        (jobs ≠ [] → res' ≠ []) := by
  have hdne : d ≠ 0 := ne_of_gt hd
  have htruthy : pyTruthyRat (some d) = true := by simp [pyTruthyRat, hdne]
  have hneg : ¬ d < 0 := not_lt.mpr hd.le
  intro jobs
  induction jobs with
  | nil =>
    intro i acc overall sleeps _ _
    exact ⟨overall, [], by simp [execute_multi_loop]⟩
  | cons job rest ih =>
    intro i acc overall sleeps hall hlen
    have hen : job.toContractJob.enabled = true := hall job (by simp)
    have hen' : ¬ job.toContractJob.enabled = false := by simp [hen]
    by_cases hbr : (exec job).success = false ∧ stop = true
    · exact ⟨overall && (exec job).success,
        [JobResult.mk job.toContractJob.name (exec job).success (exec job).tx_hash
          (exec job).error],
        by simp [execute_multi_loop, hen', hbr], by simp⟩
    · cases rest with
      | nil =>
        have hcond : ¬ (pyTruthyRat (some d) = true ∧ i < n - 1) := by
          simp at hlen
          omega
        exact ⟨overall && (exec job).success,
          [JobResult.mk job.toContractJob.name (exec job).success (exec job).tx_hash
            (exec job).error],
          by simp [execute_multi_loop, hen', hbr, hcond], by simp⟩
      | cons job₂ rest₂ =>
        have hcond : pyTruthyRat (some d) = true ∧ i < n - 1 := by
          refine ⟨htruthy, ?_⟩
          simp at hlen
          omega
        obtain ⟨ov, res₂, heq, h3⟩ := ih (i + 1)
          (JobResult.mk job.toContractJob.name (exec job).success (exec job).tx_hash
            (exec job).error :: acc)
          (overall && (exec job).success) (d :: sleeps)
          (fun j hj => hall j (by simp at hj; rcases hj with h | h <;> simp [h]))
          (by simp at hlen ⊢; omega)
        have hne : res₂ ≠ [] := h3 (by simp)
        refine ⟨ov, JobResult.mk job.toContractJob.name (exec job).success (exec job).tx_hash
          (exec job).error :: res₂, ?_, by simp⟩
        rw [show (execute_multi_loop exec stop (some d) n (job :: job₂ :: rest₂) i acc
            overall sleeps)
            = execute_multi_loop exec stop (some d) n (job₂ :: rest₂) (i + 1)
              (JobResult.mk job.toContractJob.name (exec job).success (exec job).tx_hash
                (exec job).error :: acc)
              (overall && (exec job).success) (d :: sleeps) by
          simp [execute_multi_loop, hen', hbr, hcond, hneg], heq]
        have hk : res₂.length - 1 + 1 = res₂.length := by
          cases res₂ with
          | nil => exact absurd rfl hne
          | cons a l => simp
        simp [List.replicate_succ]
        rw [show res₂.length = res₂.length - 1 + 1 by omega]
        simp [List.replicate_succ]

/-- Case analysis over every path of the executor body: a normal return is
either a success with a hash and no error, an internal failure report with
no hash and an error message, or the mined-but-reverted report carrying
the hash and the fixed "Transaction failed" message. -/
theorem execute_contract_method_core_ok_shape (env : ExecEnv) (job : SingleJob)
    (out : TxOutcome) (h : execute_contract_method_core env job = Except.ok out) :
    (out.success = true ∧ out.error = none ∧ out.tx_hash.isSome = true) ∨
    (out.success = false ∧ out.tx_hash = none ∧ out.error.isSome = true) ∨
    (out.success = false ∧ out.error = some "Transaction failed" ∧
      out.tx_hash.isSome = true) := by
  unfold execute_contract_method_core at h
  dsimp only at h
  cases h1 : get_web3_provider env job.toContractJob.network <;> rw [h1] at h <;>
    dsimp only at h
  · simp at h
  cases h2 : env.get_private_key <;> rw [h2] at h <;> dsimp only at h
  · simp at h
  rename_i key
  cases h3 : env.account_from_key key <;> rw [h3] at h <;> dsimp only at h
  · simp at h
  rename_i from_address
  cases h4 : env.load_abi job.toContractJob.contract_abi_path <;> rw [h4] at h <;>
    dsimp only at h
  · simp at h
  cases h5 : env.get_contract job.toContractJob.contract_address <;> rw [h5] at h <;>
    dsimp only at h
  · simp at h
  have hargs : ∀ method_args : List PyVal,
      (match env.bind_method job.toContractJob.method_name method_args with
        | Except.error e => Except.error e
        | Except.ok _method =>
        match (if job.toContractJob.validate_before_send = true then
                match env.estimate_gas job.toContractJob.method_name method_args
                    from_address job.toContractJob.value with
                | EstimateResult.ok g => Sum.inr (pyOrNat job.toContractJob.gas_limit (bufferGas g))
                | EstimateResult.logicError m =>
                  Sum.inl (Except.ok (TxOutcome.mk false none
                    (some ("Transaction would fail: " ++ m))))
                | EstimateResult.otherError m => Sum.inl (Except.error m)
              else
                Sum.inr (pyOrNat job.toContractJob.gas_limit
                  env.transaction_config.default_gas_limit)) with
        | Sum.inl r => r
        | Sum.inr gas_limit =>
        match env.get_transaction_count from_address with
        | Except.error e => Except.error e
        | Except.ok nonce =>
        match compute_gas_price env.transaction_config job.toContractJob.gas_price
            env.network_gas_price with
        | Except.error e => Except.error e
        | Except.ok gasPrice =>
        match env.build_transaction ⟨from_address, job.toContractJob.value, nonce,
            if gas_limit ≠ 0 then gas_limit else env.transaction_config.default_gas_limit,
            gasPrice⟩ with
        | Except.error e => Except.error e
        | Except.ok tx =>
        match env.sign_transaction tx with
        | Except.error e => Except.error e
        | Except.ok signed =>
        match signed.raw with
        | none => Except.error "Could not extract raw transaction data"
        | some raw =>
        match env.send_raw_transaction raw with
        | Except.error e => Except.error e
        | Except.ok tx_hash_hex =>
        match retry_wait env tx_hash_hex 3 1 with
        | Except.error e => Except.error e
        | Except.ok status =>
        if status = 1 then Except.ok (TxOutcome.mk true (some tx_hash_hex) none)
        else Except.ok (TxOutcome.mk false (some tx_hash_hex) (some "Transaction failed")))
        = Except.ok out →
      (out.success = true ∧ out.error = none ∧ out.tx_hash.isSome = true) ∨
      (out.success = false ∧ out.tx_hash = none ∧ out.error.isSome = true) ∨
      (out.success = false ∧ out.error = some "Transaction failed" ∧
        out.tx_hash.isSome = true) := by
    intro method_args hh
    cases h7 : env.bind_method job.toContractJob.method_name method_args <;>
      rw [h7] at hh <;> dsimp only at hh
    · simp at hh
    have hrest : ∀ gas_limit : Nat,
        (match env.get_transaction_count from_address with
          | Except.error e => Except.error e
          | Except.ok nonce =>
          match compute_gas_price env.transaction_config job.toContractJob.gas_price
              env.network_gas_price with
          | Except.error e => Except.error e
          | Except.ok gasPrice =>
          match env.build_transaction ⟨from_address, job.toContractJob.value, nonce,
              if gas_limit ≠ 0 then gas_limit else env.transaction_config.default_gas_limit,
              gasPrice⟩ with
          | Except.error e => Except.error e
          | Except.ok tx =>
          match env.sign_transaction tx with
          | Except.error e => Except.error e
          | Except.ok signed =>
          match signed.raw with
          | none => Except.error "Could not extract raw transaction data"
          | some raw =>
          match env.send_raw_transaction raw with
          | Except.error e => Except.error e
          | Except.ok tx_hash_hex =>
          match retry_wait env tx_hash_hex 3 1 with
          | Except.error e => Except.error e
          | Except.ok status =>
          if status = 1 then Except.ok (TxOutcome.mk true (some tx_hash_hex) none)
          else Except.ok (TxOutcome.mk false (some tx_hash_hex) (some "Transaction failed")))
          = Except.ok out →
        (out.success = true ∧ out.error = none ∧ out.tx_hash.isSome = true) ∨
        (out.success = false ∧ out.tx_hash = none ∧ out.error.isSome = true) ∨
        (out.success = false ∧ out.error = some "Transaction failed" ∧
          out.tx_hash.isSome = true) := by
      intro gas_limit hh
      cases h9 : env.get_transaction_count from_address <;> rw [h9] at hh <;>
        dsimp only at hh
      · simp at hh
      rename_i nonce
      cases h10 : compute_gas_price env.transaction_config job.toContractJob.gas_price
          env.network_gas_price <;> rw [h10] at hh <;> dsimp only at hh
      · simp at hh
      rename_i gasPrice
      cases h11 : env.build_transaction ⟨from_address, job.toContractJob.value, nonce,
          if gas_limit ≠ 0 then gas_limit else env.transaction_config.default_gas_limit,
          gasPrice⟩ <;> rw [h11] at hh <;> dsimp only at hh
      · simp at hh
      rename_i tx
      cases h12 : env.sign_transaction tx <;> rw [h12] at hh <;> dsimp only at hh
      · simp at hh
      rename_i signed
      cases h13 : signed.raw <;> rw [h13] at hh <;> dsimp only at hh
      · simp at hh
      rename_i raw
      cases h14 : env.send_raw_transaction raw <;> rw [h14] at hh <;> dsimp only at hh
      · simp at hh
      rename_i tx_hash_hex
      cases h15 : retry_wait env tx_hash_hex 3 1 <;> rw [h15] at hh <;> dsimp only at hh
      · simp at hh
      rename_i status
      by_cases hs : status = 1 <;> simp [hs] at hh <;> subst hh <;> simp
    by_cases hv : job.toContractJob.validate_before_send = true
    · rw [if_pos hv] at hh
      cases h8 : env.estimate_gas job.toContractJob.method_name method_args from_address
          job.toContractJob.value <;> rw [h8] at hh <;> dsimp only at hh
      · exact hrest _ hh
      · injection hh with hh2
        subst hh2
        simp
      · simp at hh
    · rw [if_neg hv] at hh
      dsimp only at hh
      exact hrest _ hh
  cases h6 : job.customArgs <;> rw [h6] at h <;> dsimp only at h
  · exact hargs _ h
  rename_i spec
  cases h6a : env.calculate_custom_args spec <;> rw [h6a] at h <;> dsimp only at h
  · injection h with h2
    subst h2
    simp
  · exact hargs _ h

/-- Looking up a key immediately after setting it yields the set value. -/
theorem dictGet_dictSet_self {α : Type} (d : List (Network × α)) (k : Network) (v : α) :
    dictGet (dictSet d k v) k = some v := by
  induction d with
  | nil => simp [dictSet, dictGet]
  | cons p rest ih =>
    obtain ⟨k₀, v₀⟩ := p
    by_cases hk : k₀ = k
    · simp [dictSet, dictGet, hk]
    · simp [dictSet, dictGet, hk, ih]

/-- After a successful `get_provider`, the returned provider is the one
cached for the network in the returned state. -/
theorem get_provider_caches (env : ExecEnv) (st : ProviderServiceState) (network : Network)
    (p : Provider) (st' : ProviderServiceState) (k : Nat)
    (h : Web3ProviderService.get_provider env st network = Except.ok (p, st', k)) :
    dictGet st'.providers network = some p := by
  unfold Web3ProviderService.get_provider at h
  have hreconnect : get_provider_reconnect env st network = Except.ok (p, st', k) →
      dictGet st'.providers network = some p := by
    intro hre
    unfold get_provider_reconnect at hre
    cases hcf : connect_with_failover env st network <;> rw [hcf] at hre <;>
      (try dsimp only at hre)
    · simp at hre
    · rename_i trip
      obtain ⟨p₂, st₂, k₂⟩ := trip
      dsimp only at hre
      injection hre with hre2
      simp only [Prod.mk.injEq] at hre2
      obtain ⟨h1, h2, h3⟩ := hre2
      subst h1
      rw [← h2]
      exact dictGet_dictSet_self st₂.providers network _
  cases hcache : dictGet st.providers network <;> rw [hcache] at h <;>
    (try dsimp only at h)
  · exact hreconnect h
  · rename_i q
    cases hp : env.probe q.url <;> rw [hp] at h <;> (try dsimp only at h)
    · rename_i b
      cases b <;> (try dsimp only at h)
      · exact hreconnect h
      · injection h with h2
        simp only [Prod.mk.injEq] at h2
        obtain ⟨hq, hst, hk⟩ := h2
        subst hq
        rw [← hst]
        exact hcache
    · simp at h

/-- A name absent from the registry is never produced by run-once. -/
theorem run_once_count_zero (reg : Registry) (n : String)
    (h : n ∉ reg.map Prod.fst) : (run_once_executed reg).count n = 0 := by
  rw [List.count_eq_zero]
  intro hmem
  unfold run_once_executed at hmem
  obtain ⟨p, hp, hpn⟩ := List.mem_map.mp hmem
  exact h (List.mem_map.mpr ⟨p, List.mem_of_mem_filter hp, hpn⟩)

/-- With unique registry names, an enabled entry is executed exactly once
by run-once mode. -/
theorem run_once_count_one (reg : Registry) (n : String) (j : AnyJob)
    (hnd : (reg.map Prod.fst).Nodup) (hmem : (n, j) ∈ reg) (hen : j.enabled = true) :
    (run_once_executed reg).count n = 1 := by
  induction reg with
  | nil => cases hmem
  | cons p rest ih =>
    obtain ⟨m, k⟩ := p
    simp only [List.map_cons, List.nodup_cons] at hnd
    rcases List.mem_cons.mp hmem with heq | htail
    · injection heq with hm hk
      subst hm; subst hk
      have hz : (run_once_executed rest).count n = 0 := run_once_count_zero rest n hnd.1
      simp only [run_once_executed] at hz ⊢
      simp [List.filter_cons, hen, List.count_cons, hz]
    · have hne : m ≠ n := by
        intro hmn
        subst hmn
        exact hnd.1 (List.mem_map.mpr ⟨(m, j), htail, rfl⟩)
      have := ih hnd.2 htail
      unfold run_once_executed
      by_cases hkenabled : k.enabled = true
      · simp only [List.filter_cons, hkenabled]
        simpa [run_once_executed, List.count_cons, hne] using this
      · have hkf : k.enabled = false := by
          cases hke : k.enabled
          · rfl
          · exact absurd hke hkenabled
        simp only [List.filter_cons, hkf]
        simpa [run_once_executed] using this

/-- Every scheduled entry comes from an enabled registered job whose
schedule string parses. -/
theorem scheduled_entries_source (reg : Registry) (n : String) (s : ScheduleSpec)
    (h : (n, s) ∈ scheduled_entries reg) :
    ∃ j : AnyJob, (n, j) ∈ reg ∧ j.enabled = true ∧
      schedule_job_decision j.schedule = some s := by
  unfold scheduled_entries at h
  obtain ⟨p, hp, hps⟩ := List.mem_filterMap.mp h
  obtain ⟨spec, hspec, hpair⟩ := Option.map_eq_some'.mp hps
  injection hpair with h1 h2
  refine ⟨p.2, ?_, ?_, ?_⟩
  · rw [← h1]
    exact List.mem_of_mem_filter hp
  · exact by simpa using List.of_mem_filter hp
  · rw [hspec, h2]

/-- With unique registry names, a registered pair is determined by its
name. -/
theorem registry_name_unique (reg : Registry) (n : String) (j j' : AnyJob)
    (hnd : (reg.map Prod.fst).Nodup) (h1 : (n, j) ∈ reg) (h2 : (n, j') ∈ reg) :
    j = j' := by
  induction reg with
  | nil => cases h1
  | cons p rest ih =>
    obtain ⟨m, k⟩ := p
    simp only [List.map_cons, List.nodup_cons] at hnd
    rcases List.mem_cons.mp h1 with he1 | ht1 <;> rcases List.mem_cons.mp h2 with he2 | ht2
    · injection he1 with hm1 hk1
      injection he2 with hm2 hk2
      rw [hk1, hk2]
    · injection he1 with hm1 hk1
      subst hm1
      exact absurd (List.mem_map.mpr ⟨(n, j'), ht2, rfl⟩) hnd.1
    · injection he2 with hm2 hk2
      subst hm2
      exact absurd (List.mem_map.mpr ⟨(n, j), ht1, rfl⟩) hnd.1
    · exact ih hnd.2 ht1 ht2

/-- A falsy schedule string (None or empty) is never scheduled. -/
theorem schedule_job_decision_falsy (sched : Option String)
    (h : pyTruthyStr sched = false) : schedule_job_decision sched = none := by
  unfold schedule_job_decision
  simp [h]

/-- Results-and-flag projection of the sequence loop: when the configured
delay is sleep-safe (so `time.sleep` cannot raise), the recorded outcomes
and overall flag do not depend on the sleep bookkeeping and can be
computed by this sleep-free recursion. -/
def execute_multi_results (exec : SingleJob → TxOutcome) (stop : Bool) :
    List SingleJob → List JobResult → Bool → Bool × List JobResult
  | [], acc, overall => (overall, acc.reverse)
  | job :: rest, acc, overall =>
    if job.toContractJob.enabled = false then
      execute_multi_results exec stop rest
        (JobResult.mk job.toContractJob.name true none (some "Skipped - disabled") :: acc)
        overall
    else
      let r := exec job
      let acc' := JobResult.mk job.toContractJob.name r.success r.tx_hash r.error :: acc
      if r.success = false ∧ stop = true then (overall && r.success, acc'.reverse)
      else execute_multi_results exec stop rest acc' (overall && r.success)

/-- The loop's overall flag and result list agree with the sleep-free
projection whenever the configured delay is sleep-safe (falsy, or
non-negative so that `time.sleep` cannot raise), for every sleep/index
bookkeeping state. -/
theorem execute_multi_loop_results_eq (exec : SingleJob → TxOutcome) (stop : Bool)
    (delay : Option Rat) (n : Nat)
    (hsafe : pyTruthyRat delay = true → 0 ≤ delay.getD 0) :
    ∀ (jobs : List SingleJob) (i : Nat) (acc : List JobResult) (overall : Bool)
      (sleeps : List Rat),
      ∃ sl,
        execute_multi_loop exec stop delay n jobs i acc overall sleeps
          = Sum.inl ((execute_multi_results exec stop jobs acc overall).1,
              (execute_multi_results exec stop jobs acc overall).2, sl) := by
  intro jobs
  induction jobs with
  | nil =>
    intro i acc overall sleeps
    exact ⟨sleeps.reverse, by simp [execute_multi_loop, execute_multi_results]⟩
  | cons job rest ih =>
    intro i acc overall sleeps
    by_cases hen : job.toContractJob.enabled = false
    · obtain ⟨sl, hr⟩ := ih (i + 1)
        (JobResult.mk job.toContractJob.name true none (some "Skipped - disabled") :: acc)
        overall sleeps
      exact ⟨sl, by simp [execute_multi_loop, execute_multi_results, hen, hr]⟩
    · by_cases hbr : (exec job).success = false ∧ stop = true
      · exact ⟨sleeps.reverse,
          by simp [execute_multi_loop, execute_multi_results, hen, hbr]⟩
      · by_cases hc : pyTruthyRat delay = true ∧ i < n - 1
        · have hneg : ¬ delay.getD 0 < 0 := not_lt.mpr (hsafe hc.1)
          obtain ⟨sl, hr⟩ := ih (i + 1)
            (JobResult.mk job.toContractJob.name (exec job).success (exec job).tx_hash
              (exec job).error :: acc)
            (overall && (exec job).success) (delay.getD 0 :: sleeps)
          exact ⟨sl,
            by simp [execute_multi_loop, execute_multi_results, hen, hbr, hc, hneg, hr]⟩
        · obtain ⟨sl, hr⟩ := ih (i + 1)
            (JobResult.mk job.toContractJob.name (exec job).success (exec job).tx_hash
              (exec job).error :: acc)
            (overall && (exec job).success) sleeps
          exact ⟨sl, by simp [execute_multi_loop, execute_multi_results, hen, hbr, hc, hr]⟩

/-! ## Concrete fixtures for witnesses and counterexamples -/

/-- Fixture: a prefix/length-valid contract address used by test jobs. -/
def addrA : String := "0xaaaaaaaaaaaaaaaaaaaaaaaaaaaaaaaaaaaaaaaa"

/-- Fixture: a 42-character `0x`-prefixed address whose tail is not
hexadecimal. -/
def addrNonHex : String := "0xzzzzzzzzzzzzzzzzzzzzzzzzzzzzzzzzzzzzzzzz"

/-- Fixture: a simple static-args job on BSC with the given name and
enabled flag. -/
def mkJob (n : String) (enabled : Bool) : SingleJob :=
  SingleJob.mk
    { name := n, network := Network.bsc, contract_address := addrA,
      contract_abi_path := "abi.json", method_name := "run", enabled := enabled }
    none

/-- Fixture: per-step executor that always reports success. -/
def execAllOk : SingleJob → TxOutcome := fun _ => TxOutcome.mk true (some "0xh") none

/-- Fixture: an oracle environment in which every external step fails. -/
def envErr : ExecEnv :=
  { transaction_config := {},
    network_config := fun _ => Except.error "no rpc configured",
    probe := fun _ => ProbeResult.ok false,
    get_private_key := Except.error "no key",
    account_from_key := fun _ => Except.error "bad key",
    load_abi := fun _ => Except.error "no abi",
    get_contract := fun _ => Except.error "no contract",
    calculate_custom_args := fun _ => Except.error "no plugin",
    bind_method := fun _ _ => Except.error "no method",
    estimate_gas := fun _ _ _ _ => EstimateResult.otherError "estimate boom",
    get_transaction_count := fun _ => Except.error "no nonce",
    network_gas_price := Except.error "no gas price",
    build_transaction := fun _ => Except.error "no build",
    sign_transaction := fun _ => Except.error "no sign",
    send_raw_transaction := fun _ => Except.error "no send",
    wait_receipt := fun _ _ => WaitResult.fatal "no receipt" }

/-- Fixture: environment whose primary endpoint `urlA` is dead while the
fallback `urlB` is live, for every network. -/
def envC2 : ExecEnv :=
  { envErr with
    network_config := fun _ => Except.ok (NetworkConfig.mk "urlA" ["urlA", "urlB"] none none),
    probe := fun u => if u = "urlB" then ProbeResult.ok true else ProbeResult.ok false }

/-- Fixture: provider-service state after a successful failover to
`urlB`. -/
def stC2 : ProviderServiceState :=
  ProviderServiceState.mk [(Network.bsc, Provider.mk "urlB")] [(Network.bsc, 1)]

/-- Fixture: environment with a single live endpoint `urlA`. -/
def envC9 : ExecEnv :=
  { envErr with
    network_config := fun _ => Except.ok (NetworkConfig.mk "urlA" ["urlA"] none none),
    probe := fun _ => ProbeResult.ok true }

/-- Fixture: provider-service state caching the live `urlA` connection. -/
def stC9 : ProviderServiceState :=
  ProviderServiceState.mk [(Network.bsc, Provider.mk "urlA")] [(Network.bsc, 0)]

/-- Fixture: daily window 01:00-12:00 UTC, in seconds since midnight. -/
def c1Window : TimeWindow := TimeWindow.mk 3600 43200

/-- Fixture: a window-gated sequence of one enabled step. -/
def c1Multi : ContractJobMulti :=
  { name := "gated", jobs := [mkJob "step" true], schedule := "every 5 minutes",
    allowed_time_windows := some [c1Window] }

/-- Fixture: two-step sequence with a 5-second inter-step delay whose
first step is disabled. -/
def c3MultiDisabled : ContractJobMulti :=
  { name := "sq", jobs := [mkJob "a" false, mkJob "b" true],
    schedule := "every day at 01:00", delay_between_jobs := some 5 }

/-- Fixture: the same two-step sequence with the first step enabled. -/
def c3MultiEnabled : ContractJobMulti :=
  { name := "sq", jobs := [mkJob "a" true, mkJob "b" true],
    schedule := "every day at 01:00", delay_between_jobs := some 5 }

/-- Fixture: per-step executor succeeding on job "a" and failing on every
other job. -/
def execFailB : SingleJob → TxOutcome := fun j =>
  if j.toContractJob.name = "a" then TxOutcome.mk true (some "0xh") none
  else TxOutcome.mk false none (some "boom")

/-- Fixture: three-step all-enabled sequence with stop_on_failure
disabled and a negative inter-step delay, on which the source's first
`time.sleep` call raises `ValueError`. -/
def mjNegDelay : ContractJobMulti :=
  ContractJobMulti.mk "t" [mkJob "a" true, mkJob "b" true, mkJob "c" true] "s"
    true false (some (-5)) none none

/-- Fixture: registry holding one enabled standalone job with no
schedule. -/
def c6Reg : Registry := register_jobs [] [AnyJob.single (mkJob "lonely" true)]

/-! ## Claim theorems -/

/-- C8: time window containment is inclusive of both boundaries and wraps
past midnight exactly when start > end; the window 01:00-12:00 contains
06:00 and excludes 13:00 and 00:30, the wrap-around window 22:00-02:00
contains 23:00 and 01:00 and excludes 12:00; in the wrapping case
containment holds iff the value is at or after start or at or before
end. -/
theorem c8_time_window_contains :
    (∀ (w : TimeWindow) (v : TimeOfDay),
        (w.start ≤ w.«end» → (w.contains v = true ↔ w.start ≤ v ∧ v ≤ w.«end»)) ∧
        (w.«end» < w.start → (w.contains v = true ↔ v ≥ w.start ∨ v ≤ w.«end»))) ∧
    (∀ w : TimeWindow, w.contains w.start = true ∧ w.contains w.«end» = true) ∧
    ((TimeWindow.mk 3600 43200).contains 21600 = true ∧
     (TimeWindow.mk 3600 43200).contains 46800 = false ∧
     (TimeWindow.mk 3600 43200).contains 1800 = false ∧
     (TimeWindow.mk 79200 7200).contains 82800 = true ∧
     (TimeWindow.mk 79200 7200).contains 3600 = true ∧
     (TimeWindow.mk 79200 7200).contains 43200 = false) := by
  refine ⟨?_, ?_, by decide⟩
  · intro w v
    constructor
    · intro h
      simp [TimeWindow.contains, h]
    · intro h
      have h' : ¬ w.start ≤ w.«end» := Nat.not_le.mpr h
      simp [TimeWindow.contains, h']
  · intro w
    by_cases h : w.start ≤ w.«end» <;>
      exact ⟨by simp [TimeWindow.contains, h], by simp [TimeWindow.contains, h]⟩

/-- C8 witness: the general characterization evaluated on the concrete
non-wrapping window 01:00-12:00 at 06:00. -/
theorem c8_witness :
    (3600 : Nat) ≤ 43200 ∧
    ((TimeWindow.mk 3600 43200).contains 21600 = true ↔ 3600 ≤ 21600 ∧ 21600 ≤ 43200) :=
  ⟨by decide, (c8_time_window_contains.1 (TimeWindow.mk 3600 43200) 21600).1 (by decide)⟩

/-- C10 counterexample: a 42-character `0x`-prefixed address whose tail
is not hexadecimal passes `validate_address`, refuting the claim that
every constructed job has a hexadecimal target address. -/
theorem c10_counterexample :
    validate_address addrNonHex = Except.ok addrNonHex ∧
    (addrNonHex.data.drop 2).all isHexChar = false := by
  exact ⟨rfl, rfl⟩

/-- C10 amended: `validate_address` accepts exactly the strings that
start with `0x` and have 42 characters (no hexadecimal check), and
rejects every other string with the fixed validation error. -/
theorem c10_address_validation :
    ∀ v : String,
      (validate_address v = Except.ok v ↔ pyStartsWith v "0x" = true ∧ pyLen v = 42) ∧
      ((pyStartsWith v "0x" = true ∧ pyLen v = 42 → False) →
        validate_address v
          = Except.error "Contract address must be a valid Ethereum address") := by
  intro v
  unfold validate_address
  by_cases h1 : pyStartsWith v "0x" = true <;> by_cases h2 : pyLen v = 42 <;>
    simp [h1, h2]

/-- C10 witness: the rejection branch evaluated at the short string
"0xabc". -/
theorem c10_witness :
    validate_address "0xabc"
      = Except.error "Contract address must be a valid Ethereum address" :=
  (c10_address_validation "0xabc").2 (by decide)

/-- C7 counterexample: a job whose gas_price is explicitly configured as 0
does not win the precedence; the process default (5) is used instead,
refuting the claim for every job. -/
theorem c7_counterexample :
    compute_gas_price { default_gas_price := some 5 } (some 0) (Except.ok 7)
      = Except.ok 5 ∧ (5 : Int) ≠ 0 := by
  exact ⟨rfl, by decide⟩

/-- C7 amended: gas-price precedence under Python truthiness — a nonzero
job gas_price wins; else a nonzero process default; else the network gas
price scaled by the multiplier and truncated toward zero (zero or absent
values count as unset at both levels). -/
theorem c7_gas_price_precedence :
    ∀ (cfg : TransactionConfig) (netp : Except String Nat),
      (∀ j : Nat, j ≠ 0 → compute_gas_price cfg (some j) netp = Except.ok (j : Int)) ∧
      (∀ jp : Option Nat, pyTruthyNat jp = false →
        ∀ d : Nat, d ≠ 0 → cfg.default_gas_price = some d →
          compute_gas_price cfg jp netp = Except.ok (d : Int)) ∧
      (∀ jp : Option Nat, pyTruthyNat jp = false →
        pyTruthyNat cfg.default_gas_price = false →
        ∀ g : Nat, netp = Except.ok g →
          compute_gas_price cfg jp netp
            = Except.ok (pyIntTrunc ((g : Rat) * cfg.gas_price_multiplier))) := by
  intro cfg netp
  refine ⟨?_, ?_, ?_⟩
  · intro j hj
    have h1 : pyTruthyNat (some j) = true := by simp [pyTruthyNat, hj]
    simp [compute_gas_price, h1]
  · intro jp hjp d hd hdef
    have h2 : pyTruthyNat cfg.default_gas_price = true := by
      rw [hdef]; simp [pyTruthyNat, hd]
    simp [compute_gas_price, hjp, h2]
    rw [hdef]
    simp
  · intro jp hjp hdef g hg
    simp [compute_gas_price, hjp, hdef, hg]

/-- C7 witness: the three precedence levels evaluated at concrete
configurations (nonzero job price 3; default 5; network price 21 scaled
by 3/2 and truncated to 31). -/
theorem c7_witness :
    compute_gas_price {} (some 3) (Except.ok 7) = Except.ok 3 ∧
    compute_gas_price { default_gas_price := some 5 } none (Except.ok 7) = Except.ok 5 ∧
    compute_gas_price { gas_price_multiplier := (3 : Rat) / 2 } none (Except.ok 21)
      = Except.ok (pyIntTrunc ((21 : Rat) * ((3 : Rat) / 2))) :=
  ⟨(c7_gas_price_precedence {} (Except.ok 7)).1 3 (by decide),
   (c7_gas_price_precedence { default_gas_price := some 5 } (Except.ok 7)).2.1 none rfl 5
     (by decide) rfl,
   (c7_gas_price_precedence { gas_price_multiplier := (3 : Rat) / 2 } (Except.ok 21)).2.2
     none rfl rfl 21 rfl⟩

/-- C1 (code-bug evidence): `execute_multi_job` never consults
`allowed_time_windows` or any clock — the window 01:00-12:00 does not
contain 13:00, yet the gated sequence's only step still executes and is
recorded; replacing the windows of any sequence changes nothing about its
execution. -/
theorem c1_time_window_gate_missing :
    ([c1Window].any (fun w => w.contains 46800) = false) ∧
    ((execute_multi_job execAllOk c1Multi).job_results
      = [JobResult.mk "step" true (some "0xh") none]) ∧
    (∀ (exec : SingleJob → TxOutcome) (mj : ContractJobMulti)
        (tw : Option (List TimeWindow)),
      execute_multi_job exec { mj with allowed_time_windows := tw }
        = execute_multi_job exec mj) := by
  refine ⟨by decide, by rfl, ?_⟩
  intro exec mj tw
  rfl

/-- C3 counterexample: with a truthy 5-second delay, a disabled non-final
first step is recorded as a skipped success but the executor performs no
inter-step sleep, whereas the identical sequence with that step enabled
(and succeeding) sleeps 5 seconds — refuting "goes through the inter-step
delay logic exactly as a real successful step does". -/
theorem c3_counterexample :
    pyTruthyRat (some 5) = true ∧
    (execute_multi_job execAllOk c3MultiDisabled).job_results
      = [JobResult.mk "a" true none (some "Skipped - disabled"),
         JobResult.mk "b" true (some "0xh") none] ∧
    (execute_multi_job execAllOk c3MultiDisabled).sleeps = [] ∧
    (execute_multi_job execAllOk c3MultiEnabled).sleeps = [5] := by
  exact ⟨by decide, rfl, rfl, rfl⟩

/-- C3 amended: a disabled step is recorded as a successful skipped
outcome and never counts toward failure, but the executor bypasses the
inter-step delay after it; for executed (enabled) steps with a positive
delay the executor sleeps exactly once per recorded step except after the
last recorded one, and a falsy (absent or zero) delay never sleeps.  (A
negative configured delay instead makes the first attempted sleep raise,
truncating the run via the outer handler.) -/
theorem c3_delay_semantics :
    (∀ (exec : SingleJob → TxOutcome) (mj : ContractJobMulti),
      (∀ j ∈ mj.jobs, j.toContractJob.enabled = false) →
      execute_multi_job exec mj
        = MultiOutcome.mk true
            (mj.jobs.map fun j =>
              JobResult.mk j.toContractJob.name true none (some "Skipped - disabled"))
            none []) ∧
    (∀ (exec : SingleJob → TxOutcome) (mj : ContractJobMulti) (d : Rat),
      0 < d → mj.delay_between_jobs = some d →
      (∀ j ∈ mj.jobs, j.toContractJob.enabled = true) →
      (execute_multi_job exec mj).sleeps
        = List.replicate ((execute_multi_job exec mj).job_results.length - 1) d) ∧
    (∀ (exec : SingleJob → TxOutcome) (mj : ContractJobMulti),
      pyTruthyRat mj.delay_between_jobs = false →
      (execute_multi_job exec mj).sleeps = []) := by
  refine ⟨?_, ?_, ?_⟩
  · intro exec mj hall
    have h := execute_multi_loop_all_disabled exec mj.stop_on_failure mj.delay_between_jobs
      mj.jobs.length mj.jobs 0 [] true [] hall
    simp [execute_multi_job, h]
  · intro exec mj d hd hdel hall
    obtain ⟨ov, res', heq, hne⟩ := execute_multi_loop_sleeps exec mj.stop_on_failure d
      mj.jobs.length hd mj.jobs 0 [] true [] hall (Nat.zero_add _)
    simp only [execute_multi_job, hdel]
    rw [heq]
    simp
  · intro exec mj h
    obtain ⟨ov, res, hr⟩ := execute_multi_loop_no_delay exec mj.stop_on_failure
      mj.delay_between_jobs mj.jobs.length h mj.jobs 0 [] true []
    simp [execute_multi_job, hr]

/-- C3 witness: the three amended components evaluated at concrete
sequences (all-disabled, all-enabled with positive delay 5, and no
delay). -/
theorem c3_witness :
    execute_multi_job execAllOk
        (ContractJobMulti.mk "allskip" [mkJob "a" false] "s" true true none none none)
      = MultiOutcome.mk true [JobResult.mk "a" true none (some "Skipped - disabled")]
          none [] ∧
    (execute_multi_job execAllOk c3MultiEnabled).sleeps
      = List.replicate
          ((execute_multi_job execAllOk c3MultiEnabled).job_results.length - 1) 5 ∧
    (execute_multi_job execAllOk
        (ContractJobMulti.mk "nodelay" [mkJob "b" true] "s" true true none none none)).sleeps
      = [] :=
  ⟨c3_delay_semantics.1 execAllOk _ (by decide),
   c3_delay_semantics.2.1 execAllOk c3MultiEnabled 5 (by decide) rfl (by decide),
   c3_delay_semantics.2.2 execAllOk _ (by decide)⟩

/-- C5 counterexample: with delay_between_jobs = -5 and stop_on_failure
false, the first inter-step sleep raises ValueError, so the three-step
run is truncated after one recorded outcome (the claim demands three) and
is reported unsuccessful although every recorded outcome succeeded — so
overall success is not the AND of the recorded step outcomes. -/
theorem c5_counterexample :
    (execute_multi_job execFailB mjNegDelay).job_results
      = [JobResult.mk "a" true (some "0xh") none] ∧
    (execute_multi_job execFailB mjNegDelay).overall_success = false ∧
    ((execute_multi_job execFailB mjNegDelay).job_results.all fun r => r.success)
      = true ∧
    (execute_multi_job execFailB mjNegDelay).error
      = some "sleep length must be non-negative" := by
  exact ⟨rfl, rfl, rfl, rfl⟩

/-- C5 amended: whenever a sequence run completes without an internal
exception (error absent), its overall flag is the conjunction of all
recorded step outcomes; and provided delay_between_jobs is sleep-safe
(absent, zero, or positive), a three-step all-enabled sequence whose
second step fails records exactly steps 1 and 2 when stop_on_failure is
true (step 3 neither run nor recorded) and all three steps when it is
false, with an unsuccessful overall flag. -/
theorem c5_stop_on_failure :
    (∀ (exec : SingleJob → TxOutcome) (mj : ContractJobMulti),
      (execute_multi_job exec mj).error = none →
      (execute_multi_job exec mj).overall_success
        = (execute_multi_job exec mj).job_results.all fun r => r.success) ∧
    (∀ (exec : SingleJob → TxOutcome) (j1 j2 j3 : SingleJob) (nm sch : String)
        (d : Option Rat) (rc : Option (List (String × PyVal)))
        (tw : Option (List TimeWindow)),
      (pyTruthyRat d = true → 0 ≤ d.getD 0) →
      j1.toContractJob.enabled = true → j2.toContractJob.enabled = true →
      (exec j1).success = true → (exec j2).success = false →
      ((execute_multi_job exec
          (ContractJobMulti.mk nm [j1, j2, j3] sch true true d rc tw)).job_results.map
            (fun r => r.name)
          = [j1.toContractJob.name, j2.toContractJob.name] ∧
       (execute_multi_job exec
          (ContractJobMulti.mk nm [j1, j2, j3] sch true false d rc tw)).job_results.length
          = 3 ∧
       (execute_multi_job exec
          (ContractJobMulti.mk nm [j1, j2, j3] sch true true d rc tw)).overall_success
          = false)) := by
  constructor
  · intro exec mj herr
    unfold execute_multi_job at herr ⊢
    cases hloop : execute_multi_loop exec mj.stop_on_failure mj.delay_between_jobs
        mj.jobs.length mj.jobs 0 [] true [] with
    | inl trip =>
      obtain ⟨ov, res, sl⟩ := trip
      obtain ⟨res', hr, ho⟩ := execute_multi_loop_overall exec mj.stop_on_failure
        mj.delay_between_jobs mj.jobs.length mj.jobs 0 [] true [] ov res sl hloop
      simp only [List.reverse_nil, List.nil_append] at hr
      dsimp only
      rw [ho, hr]
      simp
    | inr trip =>
      obtain ⟨e, res, sl⟩ := trip
      rw [hloop] at herr
      simp at herr
  · intro exec j1 j2 j3 nm sch d rc tw hsafe he1 he2 hs1 hs2
    have he1' : ¬ j1.toContractJob.enabled = false := by simp [he1]
    have he2' : ¬ j2.toContractJob.enabled = false := by simp [he2]
    refine ⟨?_, ?_, ?_⟩
    · obtain ⟨sl, hres⟩ := execute_multi_loop_results_eq exec true d
        ([j1, j2, j3].length) hsafe [j1, j2, j3] 0 [] true []
      simp only [execute_multi_job]
      rw [hres]
      dsimp only
      simp [execute_multi_results, he1', he2', hs1, hs2]
    · obtain ⟨sl, hres⟩ := execute_multi_loop_results_eq exec false d
        ([j1, j2, j3].length) hsafe [j1, j2, j3] 0 [] true []
      simp only [execute_multi_job]
      rw [hres]
      dsimp only
      by_cases he3 : j3.toContractJob.enabled = false <;>
        simp [execute_multi_results, he1', he2', he3, hs1, hs2]
    · obtain ⟨sl, hres⟩ := execute_multi_loop_results_eq exec true d
        ([j1, j2, j3].length) hsafe [j1, j2, j3] 0 [] true []
      simp only [execute_multi_job]
      rw [hres]
      dsimp only
      simp [execute_multi_results, he1', he2', hs1, hs2]

/-- C5 witness: concrete three-step run whose second step fails, with no
configured delay, under both stop_on_failure settings. -/
theorem c5_witness :
    (execute_multi_job execFailB
        (ContractJobMulti.mk "t" [mkJob "a" true, mkJob "b" true, mkJob "c" true]
          "s" true true none none none)).job_results.map (fun r => r.name)
      = ["a", "b"] ∧
    (execute_multi_job execFailB
        (ContractJobMulti.mk "t" [mkJob "a" true, mkJob "b" true, mkJob "c" true]
          "s" true false none none none)).job_results.length = 3 ∧
    (execute_multi_job execFailB
        (ContractJobMulti.mk "t" [mkJob "a" true, mkJob "b" true, mkJob "c" true]
          "s" true true none none none)).overall_success = false :=
  c5_stop_on_failure.2 execFailB (mkJob "a" true) (mkJob "b" true) (mkJob "c" true)
    "t" "s" none none none (by decide) rfl rfl rfl rfl

/-- C4: the single-call executor never raises past its boundary — an
exception escaping any step surfaces as the outcome
(False, None, message), and every failure outcome carries a populated
error message with an absent submission identifier except for the
mined-but-reverted case, which reports the fixed "Transaction failed"
message. -/
theorem c4_executor_never_raises :
    ∀ (env : ExecEnv) (job : SingleJob),
      (∀ e : String, execute_contract_method_core env job = Except.error e →
        execute_contract_method env job = TxOutcome.mk false none (some e)) ∧
      ((execute_contract_method env job).success = false →
        (execute_contract_method env job).error.isSome = true ∧
        ((execute_contract_method env job).tx_hash = none ∨
         (execute_contract_method env job).error = some "Transaction failed")) := by
  intro env job
  constructor
  · intro e he
    unfold execute_contract_method
    rw [he]
  · intro hfail
    unfold execute_contract_method at hfail ⊢
    cases hc : execute_contract_method_core env job with
    | error e => simp
    | ok out =>
      rw [hc] at hfail
      dsimp only at hfail
      rcases execute_contract_method_core_ok_shape env job out hc with h | h | h
      · rw [h.1] at hfail
        cases hfail
      · exact ⟨by simp [h.2.2], Or.inl h.2.1⟩
      · exact ⟨by simp [h.2.1], Or.inr h.2.1⟩

/-- C4 witness: the boundary handler evaluated in an environment whose
connection acquisition raises, plus the failure-outcome shape there. -/
theorem c4_witness :
    execute_contract_method envErr (mkJob "w" true)
      = TxOutcome.mk false none (some "no rpc configured") ∧
    ((execute_contract_method envErr (mkJob "w" true)).error.isSome = true ∧
     ((execute_contract_method envErr (mkJob "w" true)).tx_hash = none ∨
      (execute_contract_method envErr (mkJob "w" true)).error
        = some "Transaction failed")) :=
  ⟨(c4_executor_never_raises envErr (mkJob "w" true)).1 "no rpc configured" rfl,
   (c4_executor_never_raises envErr (mkJob "w" true)).2 rfl⟩

/-- C9: calling the provider service's get_provider twice in a row for a
network whose cached connection is healthy returns the same cached handle
and the same state, and the second call performs zero fresh endpoint
connection attempts. -/
theorem c9_get_provider_idempotent :
    ∀ (env : ExecEnv) (st : ProviderServiceState) (network : Network)
      (p : Provider) (st' : ProviderServiceState) (k : Nat),
      Web3ProviderService.get_provider env st network = Except.ok (p, st', k) →
      env.probe p.url = ProbeResult.ok true →
      Web3ProviderService.get_provider env st' network = Except.ok (p, st', 0) := by
  intro env st network p st' k h hhealthy
  have hcache := get_provider_caches env st network p st' k h
  unfold Web3ProviderService.get_provider
  rw [hcache]
  dsimp only
  rw [hhealthy]

/-- C9 witness: a first call that connects and caches `urlA`, followed by
a second call returning the same handle with zero connection attempts. -/
theorem c9_witness :
    Web3ProviderService.get_provider envC9 {} Network.bsc
      = Except.ok (Provider.mk "urlA", stC9, 1) ∧
    Web3ProviderService.get_provider envC9 stC9 Network.bsc
      = Except.ok (Provider.mk "urlA", stC9, 0) :=
  ⟨rfl, c9_get_provider_idempotent envC9 {} Network.bsc (Provider.mk "urlA") stC9 1 rfl rfl⟩

/-- C2 counterexample: with primary `urlA` dead and fallback `urlB` live,
the call executor fails with the primary-only connection error while the
Provider Failover Service succeeds via rotation — refuting the claim that
job execution acquires its connection through the failover service. -/
theorem c2_counterexample :
    execute_contract_method envC2 (mkJob "x" true)
      = TxOutcome.mk false none (some "Failed to connect to bsc network") ∧
    Web3ProviderService.get_provider envC2 {} Network.bsc
      = Except.ok (Provider.mk "urlB", stC2, 2) := by
  exact ⟨rfl, rfl⟩

/-- C2 amended: the call executor obtains its connection through
`get_web3_provider`, which builds a fresh provider against the network's
primary RPC URL only — whenever the primary endpoint is unreachable the
job fails with the connection error, regardless of any configured
fallback endpoints; the caching/rotating Web3ProviderService exists but
is not consulted by the executor. -/
theorem c2_executor_primary_only :
    ∀ (env : ExecEnv) (job : SingleJob) (cfg : NetworkConfig),
      env.network_config job.toContractJob.network = Except.ok cfg →
      env.probe cfg.rpc_url = ProbeResult.ok false →
      execute_contract_method env job
        = TxOutcome.mk false none
            (some ("Failed to connect to " ++ job.toContractJob.network.value
              ++ " network")) := by
  intro env job cfg h1 h2
  have hgw : get_web3_provider env job.toContractJob.network
      = Except.error ("Failed to connect to " ++ job.toContractJob.network.value
        ++ " network") := by
    unfold get_web3_provider
    rw [h1]
    dsimp only
    rw [h2]
  have hcore : execute_contract_method_core env job
      = Except.error ("Failed to connect to " ++ job.toContractJob.network.value
        ++ " network") := by
    unfold execute_contract_method_core
    dsimp only
    rw [hgw]
  unfold execute_contract_method
  rw [hcore]

/-- C2 witness: the amended theorem evaluated in the dead-primary
environment. -/
theorem c2_witness :
    execute_contract_method envC2 (mkJob "x" true)
      = TxOutcome.mk false none
          (some ("Failed to connect to " ++ Network.bsc.value ++ " network")) :=
  c2_executor_primary_only envC2 (mkJob "x" true)
    (NetworkConfig.mk "urlA" ["urlA", "urlB"] none none) rfl rfl

/-- C6: run-once mode executes exactly the enabled registered entries, in
registry order, with no reference to any schedule or clock; under unique
registry names each enabled entry runs exactly once, and an enabled entry
with an empty or absent schedule string is executed by run-once yet never
receives a cadence registration, so the polling loop never fires it. -/
theorem c6_run_once_semantics :
    (∀ reg : Registry,
      run_once_executed reg = (reg.filter fun p => p.2.enabled).map fun p => p.1) ∧
    (∀ (reg : Registry) (n : String) (j : AnyJob),
      (reg.map Prod.fst).Nodup → (n, j) ∈ reg → j.enabled = true →
      (run_once_executed reg).count n = 1) ∧
    (∀ (reg : Registry) (n : String) (j : AnyJob),
      (reg.map Prod.fst).Nodup → (n, j) ∈ reg → j.enabled = true →
      pyTruthyStr j.schedule = false →
      n ∈ run_once_executed reg ∧
      ∀ s : ScheduleSpec, (n, s) ∉ scheduled_entries reg) := by
  refine ⟨fun reg => rfl, fun reg n j hnd hmem hen => run_once_count_one reg n j hnd hmem hen, ?_⟩
  intro reg n j hnd hmem hen hsched
  constructor
  · exact List.mem_map.mpr ⟨(n, j), List.mem_filter.mpr ⟨hmem, by simp [hen]⟩, rfl⟩
  · intro s hs
    obtain ⟨j', hj', hen', hdec⟩ := scheduled_entries_source reg n s hs
    have hjj : j' = j := registry_name_unique reg n j' j hnd hj' hmem
    rw [hjj] at hdec
    rw [schedule_job_decision_falsy j.schedule hsched] at hdec
    cases hdec

/-- C6 witness: a registry holding one enabled schedule-less standalone
job — run-once executes it exactly once, the cadence engine never
registers it. -/
theorem c6_witness :
    (run_once_executed c6Reg).count "lonely" = 1 ∧
    ("lonely" ∈ run_once_executed c6Reg ∧
     ∀ s : ScheduleSpec, ("lonely", s) ∉ scheduled_entries c6Reg) :=
  ⟨c6_run_once_semantics.2.1 c6Reg "lonely" (AnyJob.single (mkJob "lonely" true))
     (by decide) (by decide) (by decide),
   c6_run_once_semantics.2.2 c6Reg "lonely" (AnyJob.single (mkJob "lonely" true))
     (by decide) (by decide) (by decide) (by decide)⟩
